import Mathlib

/-!
Verification development for the nuvlaedge agent core.

Shallow embedding of:
- the bounded report channel used by Telemetry.run (queue.Queue with
  block=False semantics) and its drop-oldest delivery step,
- the telemetry payload timestamp stamping (datetime.utcnow().isoformat()
  truncated to second precision),
- the monitor registry health check and metric collection of
  nuvlaedge/agent/workers/telemetry.py,
- the worker manager of nuvlaedge/agent/worker/manager.py,
- the traffic counter reconciliation of the network monitor (behaviour
  pinned by tests/agent/monitor/components/test_network.py),
- the periodic action scheduler wired in nuvlaedge/agent/__init__.py.
-/

namespace NuvlaEdge

/-- Errors raised by the non-blocking queue operations of queue.Queue:
put_nowait raises Full, get_nowait raises Empty. -/
inductive QueueErr where
  | full
  | empty
deriving DecidableEq, Repr

/-- Model of Python queue.Queue: a FIFO list of items plus the maxsize
bound. maxsize = 0 means unbounded, as in the Python standard library. -/
structure BoundedQueue (A : Type) where
  items : List A
  maxsize : Nat
deriving DecidableEq, Repr

/-- Model of queue.Queue.put(x, block=False): raises Full iff maxsize is
positive and the queue already holds at least maxsize items; otherwise
appends the item at the tail. -/
def putNowait {A : Type} (q : BoundedQueue A) (x : A) : Except QueueErr (BoundedQueue A) :=
  if 0 < q.maxsize ∧ q.maxsize ≤ q.items.length then
    Except.error QueueErr.full
  else
    Except.ok (BoundedQueue.mk (q.items ++ [x]) q.maxsize)

/-- Model of queue.Queue.get(block=False): raises Empty on an empty queue,
otherwise removes and returns the oldest (head) item. -/
def getNowait {A : Type} (q : BoundedQueue A) : Except QueueErr (A × BoundedQueue A) :=
  match q.items with
  | [] => Except.error QueueErr.empty
  | x :: rest => Except.ok (x, BoundedQueue.mk rest q.maxsize)

/-- Model of the delivery step of Telemetry.run (telemetry.py lines
301-308): try a non-blocking put; on Full, discard the oldest queued
payload with a non-blocking get and retry the put once. The retry is not
guarded by a handler in the source, so an error raised there propagates. -/
def deliverTelemetry {A : Type} (q : BoundedQueue A) (payload : A) :
    Except QueueErr (BoundedQueue A) :=
  match putNowait q payload with
  | Except.ok q1 => Except.ok q1
  | Except.error _ =>
      match getNowait q with
      | Except.error e => Except.error e
      | Except.ok (_, q2) => putNowait q2 payload

/-- True exactly when the delivery step returned without raising. -/
def deliveryOk {A : Type} : Except QueueErr (BoundedQueue A) → Bool
  | Except.ok _ => true
  | Except.error _ => false

end NuvlaEdge

namespace NuvlaEdge

/-- C1: if Telemetry.run attempts to enqueue a payload while the report
channel already holds its capacity C of payloads, the delivery step
succeeds with the channel holding exactly C items, the previously-oldest
payload gone and the new payload present. -/
theorem telemetry_enqueue_at_capacity {A : Type} (hd p : A) (tl : List A) (C : Nat)
    (hcap : (hd :: tl).length = C) (hnot : hd ∉ tl) (hne : hd ≠ p) :
    deliverTelemetry (BoundedQueue.mk (hd :: tl) C) p
        = Except.ok (BoundedQueue.mk (tl ++ [p]) C)
      ∧ (tl ++ [p]).length = C
      ∧ p ∈ tl ++ [p]
      ∧ hd ∉ tl ++ [p] := by
  have hC : 0 < C := by
    subst hcap
    simp [List.length_cons]
  have hlen : tl.length + 1 = C := by
    simpa [List.length_cons] using hcap
  refine ⟨?_, ?_, ?_, ?_⟩
  · unfold deliverTelemetry putNowait getNowait
    simp only [List.length_cons]
    rw [if_pos ⟨hC, by omega⟩]
    simp only []
    rw [if_neg]
    omega
  · simp [List.length_append]
    omega
  · simp
  · simp [hnot, hne]

/-- C1 witness: concrete instance with capacity 2, queue [10, 20] and new
payload 30. -/
theorem telemetry_enqueue_at_capacity_witness :
    deliverTelemetry (BoundedQueue.mk [10, 20] 2) 30
        = Except.ok (BoundedQueue.mk ([20] ++ [30]) 2)
      ∧ ([20] ++ [30]).length = 2
      ∧ 30 ∈ [20] ++ [30]
      ∧ 10 ∉ [20] ++ [30] :=
  telemetry_enqueue_at_capacity 10 30 [20] 2 (by decide) (by decide) (by decide)

/-- C6: the delivery step of Telemetry.run never raises to the caller:
under the queue invariant (the channel never holds more than its positive
capacity; capacity 0 means unbounded), the first put either succeeds or the
drop-oldest retry succeeds, so no Full or Empty error escapes. -/
theorem telemetry_delivery_never_raises {A : Type} (q : BoundedQueue A) (p : A)
    (hinv : q.maxsize ≠ 0 → q.items.length ≤ q.maxsize) :
    deliveryOk (deliverTelemetry q p) = true := by
  rcases q with ⟨items, C⟩
  simp only at hinv
  by_cases hC : C = 0
  · subst hC
    simp [deliverTelemetry, putNowait, deliveryOk]
  · have hle : items.length ≤ C := hinv hC
    by_cases hfull : C ≤ items.length
    · cases items with
      | nil =>
          exfalso
          simp at hfull
          omega
      | cons x rest =>
          have hcond : 0 < C ∧ C ≤ (x :: rest).length := ⟨Nat.pos_of_ne_zero hC, hfull⟩
          have hcond2 : ¬ (0 < C ∧ C ≤ rest.length) := by
            simp at hle
            omega
          have h1 : C ≤ rest.length + 1 := by
            simpa using hfull
          have h2 : ¬ C ≤ rest.length := by
            simp at hle
            omega
          simp [deliverTelemetry, putNowait, getNowait, hcond, hcond2, deliveryOk, h1, h2]
    · have hcond : ¬ (0 < C ∧ C ≤ items.length) := by omega
      simp [deliverTelemetry, putNowait, hcond, deliveryOk]

/-- C6 witness: concrete full queue of capacity 1. -/
theorem telemetry_delivery_never_raises_witness :
    deliveryOk (deliverTelemetry (BoundedQueue.mk [7] 1) 8) = true :=
  telemetry_delivery_never_raises (BoundedQueue.mk [7] 1) 8 (by decide)

end NuvlaEdge

namespace NuvlaEdge

/-- Model of a Python datetime value as returned by datetime.utcnow():
calendar fields plus microseconds. Field validity bounds (year ≤ 9999,
month ≤ 12, ...) are carried as hypotheses where needed. -/
structure PyDatetime where
  year : Nat
  month : Nat
  day : Nat
  hour : Nat
  minute : Nat
  second : Nat
  microsecond : Nat
deriving DecidableEq, Repr

/-- Two-digit zero-padded decimal rendering (%02d for values below 100). -/
def pad2 (n : Nat) : List Char :=
  [Nat.digitChar (n / 10), Nat.digitChar (n % 10)]

/-- Four-digit zero-padded decimal rendering (%04d for values below 10000). -/
def pad4 (n : Nat) : List Char :=
  [Nat.digitChar (n / 1000), Nat.digitChar (n / 100 % 10),
   Nat.digitChar (n / 10 % 10), Nat.digitChar (n % 10)]

/-- Character list of datetime.utcnow().isoformat().split(...)[0] + a
trailing Z marker: the ISO-8601 rendering truncated to second precision.
The microsecond field does not appear: the source drops everything after
the decimal point of isoformat(). -/
def isoChars (dt : PyDatetime) : List Char :=
  pad4 dt.year ++ '-' :: pad2 dt.month ++ '-' :: pad2 dt.day ++
    'T' :: pad2 dt.hour ++ ':' :: pad2 dt.minute ++ ':' :: pad2 dt.second ++ ['Z']

/-- The current_time string written by Telemetry.run (telemetry.py line
299). -/
def isoSecondZ (dt : PyDatetime) : String :=
  String.mk (isoChars dt)

/-- Minimal model of the telemetry payload around the stamping step: the
current_time field plus the merged monitor fields produced by the earlier
steps of the cycle. -/
structure TelemetryPayloadModel where
  currentTime : Option String
  fields : List (String × String)
deriving DecidableEq, Repr

/-- Model of telemetry.py lines 298-299: the payload's current_time is
overwritten unconditionally with the truncated utcnow rendering. -/
def stampCurrentTime (p : TelemetryPayloadModel) (now : PyDatetime) : TelemetryPayloadModel :=
  TelemetryPayloadModel.mk (some (isoSecondZ now)) p.fields

/-- The second-precision component tuple of a datetime. -/
def secondTuple (dt : PyDatetime) : Nat × Nat × Nat × Nat × Nat × Nat :=
  (dt.year, dt.month, dt.day, dt.hour, dt.minute, dt.second)

theorem digitChar_inj_lt10 :
    ∀ a, a < 10 → ∀ b, b < 10 → Nat.digitChar a = Nat.digitChar b → a = b := by
  decide

theorem pad2_inj (a b : Nat) (ha : a < 100) (hb : b < 100) (h : pad2 a = pad2 b) :
    a = b := by
  simp only [pad2, List.cons.injEq, and_true] at h
  obtain ⟨h1, h2⟩ := h
  have e1 := digitChar_inj_lt10 (a / 10) (by omega) (b / 10) (by omega) h1
  have e2 := digitChar_inj_lt10 (a % 10) (by omega) (b % 10) (by omega) h2
  omega

theorem pad4_inj (a b : Nat) (ha : a < 10000) (hb : b < 10000) (h : pad4 a = pad4 b) :
    a = b := by
  simp only [pad4, List.cons.injEq, and_true] at h
  obtain ⟨h1, h2, h3, h4⟩ := h
  have e1 := digitChar_inj_lt10 (a / 1000) (by omega) (b / 1000) (by omega) h1
  have e2 := digitChar_inj_lt10 (a / 100 % 10) (by omega) (b / 100 % 10) (by omega) h2
  have e3 := digitChar_inj_lt10 (a / 10 % 10) (by omega) (b / 10 % 10) (by omega) h3
  have e4 := digitChar_inj_lt10 (a % 10) (by omega) (b % 10) (by omega) h4
  omega

theorem isoSecondZ_inj (dt1 dt2 : PyDatetime)
    (hy1 : dt1.year < 10000) (hmo1 : dt1.month < 100) (hd1 : dt1.day < 100)
    (hh1 : dt1.hour < 100) (hmi1 : dt1.minute < 100) (hs1 : dt1.second < 100)
    (hy2 : dt2.year < 10000) (hmo2 : dt2.month < 100) (hd2 : dt2.day < 100)
    (hh2 : dt2.hour < 100) (hmi2 : dt2.minute < 100) (hs2 : dt2.second < 100)
    (h : isoSecondZ dt1 = isoSecondZ dt2) :
    secondTuple dt1 = secondTuple dt2 := by
  have hl : isoChars dt1 = isoChars dt2 := by
    have := congrArg String.data h
    simpa [isoSecondZ] using this
  simp only [isoChars, pad4, pad2, List.cons_append, List.nil_append,
    List.cons.injEq, and_true] at hl
  obtain ⟨y1, y2, y3, y4, _, mo1, mo2, _, d1, d2, _, h1, h2, _, mi1, mi2, _, s1, s2⟩ := hl
  have ey : dt1.year = dt2.year := by
    have e1 := digitChar_inj_lt10 _ (by omega) _ (by omega) y1
    have e2 := digitChar_inj_lt10 _ (by omega) _ (by omega) y2
    have e3 := digitChar_inj_lt10 _ (by omega) _ (by omega) y3
    have e4 := digitChar_inj_lt10 _ (by omega) _ (by omega) y4
    omega
  have emo : dt1.month = dt2.month := by
    have e1 := digitChar_inj_lt10 _ (by omega) _ (by omega) mo1
    have e2 := digitChar_inj_lt10 _ (by omega) _ (by omega) mo2
    omega
  have ed : dt1.day = dt2.day := by
    have e1 := digitChar_inj_lt10 _ (by omega) _ (by omega) d1
    have e2 := digitChar_inj_lt10 _ (by omega) _ (by omega) d2
    omega
  have eh : dt1.hour = dt2.hour := by
    have e1 := digitChar_inj_lt10 _ (by omega) _ (by omega) h1
    have e2 := digitChar_inj_lt10 _ (by omega) _ (by omega) h2
    omega
  have emi : dt1.minute = dt2.minute := by
    have e1 := digitChar_inj_lt10 _ (by omega) _ (by omega) mi1
    have e2 := digitChar_inj_lt10 _ (by omega) _ (by omega) mi2
    omega
  have es : dt1.second = dt2.second := by
    have e1 := digitChar_inj_lt10 _ (by omega) _ (by omega) s1
    have e2 := digitChar_inj_lt10 _ (by omega) _ (by omega) s2
    omega
  simp [secondTuple, ey, emo, ed, eh, emi, es]

end NuvlaEdge

namespace NuvlaEdge

/-- C7 counterexample: two consecutive Telemetry.run cycles that happen
within the same UTC second (distinct microsecond instants) and see
unchanged monitor data produce byte-identical payloads, because
current_time is truncated to second precision before the decimal point.
This refutes the claim that consecutive payloads always differ. -/
theorem telemetry_payload_identical_same_second :
    PyDatetime.mk 2026 10 12 9 30 0 111111 ≠ PyDatetime.mk 2026 10 12 9 30 0 999999
  ∧ stampCurrentTime (TelemetryPayloadModel.mk none [("ip", "10.0.0.1")])
        (PyDatetime.mk 2026 10 12 9 30 0 111111)
      = stampCurrentTime (TelemetryPayloadModel.mk none [("ip", "10.0.0.1")])
        (PyDatetime.mk 2026 10 12 9 30 0 999999) := by
  exact ⟨by decide, rfl⟩

/-- C7 amended: the current_time field is stamped unconditionally on every
cycle, and two payloads differ whenever the two run() calls occur at
distinct second-precision UTC instants; within the same whole second the
stamp (hence possibly the whole payload) is identical. -/
theorem telemetry_payload_fresh_distinct_seconds
    (p1 p2 : TelemetryPayloadModel) (dt1 dt2 : PyDatetime)
    (hy1 : dt1.year < 10000) (hmo1 : dt1.month < 100) (hd1 : dt1.day < 100)
    (hh1 : dt1.hour < 100) (hmi1 : dt1.minute < 100) (hs1 : dt1.second < 100)
    (hy2 : dt2.year < 10000) (hmo2 : dt2.month < 100) (hd2 : dt2.day < 100)
    (hh2 : dt2.hour < 100) (hmi2 : dt2.minute < 100) (hs2 : dt2.second < 100)
    (hne : secondTuple dt1 ≠ secondTuple dt2) :
    (stampCurrentTime p1 dt1).currentTime = some (isoSecondZ dt1)
  ∧ (stampCurrentTime p2 dt2).currentTime = some (isoSecondZ dt2)
  ∧ stampCurrentTime p1 dt1 ≠ stampCurrentTime p2 dt2 := by
  refine ⟨rfl, rfl, ?_⟩
  intro hcontra
  apply hne
  have hct : some (isoSecondZ dt1) = some (isoSecondZ dt2) :=
    congrArg TelemetryPayloadModel.currentTime hcontra
  have hiso : isoSecondZ dt1 = isoSecondZ dt2 := by
    injection hct
  exact isoSecondZ_inj dt1 dt2 hy1 hmo1 hd1 hh1 hmi1 hs1 hy2 hmo2 hd2 hh2 hmi2 hs2 hiso

/-- C7 amended witness: two cycles one second apart yield different
payloads, with current_time stamped on both. -/
theorem telemetry_payload_fresh_distinct_seconds_witness :
    (stampCurrentTime (TelemetryPayloadModel.mk none [])
        (PyDatetime.mk 2026 10 12 9 30 0 0)).currentTime
      = some (isoSecondZ (PyDatetime.mk 2026 10 12 9 30 0 0))
  ∧ (stampCurrentTime (TelemetryPayloadModel.mk none [])
        (PyDatetime.mk 2026 10 12 9 30 1 0)).currentTime
      = some (isoSecondZ (PyDatetime.mk 2026 10 12 9 30 1 0))
  ∧ stampCurrentTime (TelemetryPayloadModel.mk none []) (PyDatetime.mk 2026 10 12 9 30 0 0)
      ≠ stampCurrentTime (TelemetryPayloadModel.mk none []) (PyDatetime.mk 2026 10 12 9 30 1 0) :=
  telemetry_payload_fresh_distinct_seconds
    (TelemetryPayloadModel.mk none []) (TelemetryPayloadModel.mk none [])
    (PyDatetime.mk 2026 10 12 9 30 0 0) (PyDatetime.mk 2026 10 12 9 30 1 0)
    (by decide) (by decide) (by decide) (by decide) (by decide) (by decide)
    (by decide) (by decide) (by decide) (by decide) (by decide) (by decide)
    (by decide)

end NuvlaEdge

namespace NuvlaEdge

/-- Model of one entry of Telemetry.monitor_list. The fields visible to
telemetry.py: name, is_thread, liveness of the execution context
(is_alive), started state, the updated flag and populate_nb_report
behaviour used by _collect_monitor_metrics, and the per-unit error
counter. The Monitor base class itself is not under src; its surface is
modelled from the spec (MonitorUnit capability set and WorkerHandle
accounting fields). -/
structure MonitorModel where
  name : String
  is_thread : Bool
  alive : Bool
  started : Bool
  error_count : Nat
  updated : Bool
  raisesOnPopulate : Bool
  contribution : List (String × String)
deriving DecidableEq, Repr

/-- Modelled from the spec: is_thread_creation_needed
(nuvlaedge.agent.common.thread_handler, not under src) reports that a
threaded unit must be (re)created when its execution context does not
exist or is not alive. -/
def threadCreationNeeded (m : MonitorModel) : Bool :=
  !m.alive

/-- Model of the recreation step of _check_monitors_health (telemetry.py
line 243-244): get_monitor(monitor_name)(monitor_name, self, True)
constructs a brand-new monitor object, then .start() spawns and starts its
context. No state of the old instance is passed to the constructor, so the
fresh unit starts with a fresh (zero) error counter, no data yet, and a
live started context. -/
def freshMonitor (name : String) : MonitorModel :=
  MonitorModel.mk name true true true 0 false false []

/-- Modelled from the spec: the inline branch run_update_data (Monitor base
class, not under src) synchronously refreshes the unit's data, marking it
updated. -/
def runUpdateData (m : MonitorModel) : MonitorModel :=
  MonitorModel.mk m.name m.is_thread m.alive m.started m.error_count true
    m.raisesOnPopulate m.contribution

/-- Treatment of one monitor_list entry by _check_monitors_health
(telemetry.py lines 231-248): a threaded monitor whose context needs
creation is replaced by a freshly constructed and started instance under
the same key; a live threaded monitor is left alone; a non-threaded
monitor is updated synchronously. -/
def healthStep (entry : String × MonitorModel) : String × MonitorModel :=
  if entry.2.is_thread then
    if threadCreationNeeded entry.2 then (entry.1, freshMonitor entry.1) else entry
  else (entry.1, runUpdateData entry.2)

/-- Model of Telemetry._check_monitors_health: iterate the whole monitor
dictionary, applying the health step to each entry in place. -/
def checkMonitorsHealth (ml : List (String × MonitorModel)) : List (String × MonitorModel) :=
  ml.map healthStep

theorem healthStep_fst (entry : String × MonitorModel) : (healthStep entry).1 = entry.1 := by
  unfold healthStep
  split
  · split
    · rfl
    · rfl
  · rfl

/-- Model of Telemetry._collect_monitor_metrics (telemetry.py lines
195-214): fold over the monitor list building the working mapping; a
monitor that raises during collection contributes nothing and the loop
continues; a monitor whose data is updated merges its contribution
(last-writer-wins per key); a monitor not yet updated is skipped. -/
def mergeEntry (d : List (String × String)) (kv : String × String) : List (String × String) :=
  if d.any (fun e => e.1 == kv.1) then
    d.map (fun e => if e.1 == kv.1 then (e.1, kv.2) else e)
  else
    d ++ [kv]

/-- One monitor's populate_nb_report effect on the working mapping. -/
def populateReport (d : List (String × String)) (m : MonitorModel) : List (String × String) :=
  m.contribution.foldl mergeEntry d

/-- The step of the collection loop for one monitor. -/
def collectStep (d : List (String × String)) (e : String × MonitorModel) :
    List (String × String) :=
  if e.2.raisesOnPopulate then d
  else if e.2.updated then populateReport d e.2
  else d

/-- The working mapping built by _collect_monitor_metrics over the whole
monitor list. -/
def collectMonitorMetrics (ml : List (String × MonitorModel)) : List (String × String) :=
  ml.foldl collectStep []

end NuvlaEdge

namespace NuvlaEdge

theorem lookup_append_of_no_key {B : Type} (l1 l2 : List (String × B)) (k : String)
    (h : ∀ e ∈ l1, e.1 ≠ k) : List.lookup k (l1 ++ l2) = List.lookup k l2 := by
  induction l1 with
  | nil => rfl
  | cons a t ih =>
      have hne : (k == a.1) = false := by
        have := h a (by simp)
        simp [BEq.comm]
        intro hk
        exact this hk.symm
      rcases a with ⟨k1, v1⟩
      simp only [List.cons_append, List.lookup]
      rw [hne]
      exact ih (fun e he => h e (by simp [he]))

/-- C2 counterexample: a threaded monitor whose context died while its
error_count was 3 is replaced by a freshly constructed instance after the
health-check pass; the fresh instance's error_count is 0, so the error
accounting is not preserved across recreation. -/
theorem monitor_recreation_error_count_cex :
    checkMonitorsHealth [("power", MonitorModel.mk "power" true false false 3 false false [])]
        = [("power", freshMonitor "power")]
  ∧ (MonitorModel.mk "power" true false false 3 false false []).error_count = 3
  ∧ (freshMonitor "power").error_count = 0
  ∧ (freshMonitor "power").error_count
      ≠ (MonitorModel.mk "power" true false false 3 false false []).error_count := by
  refine ⟨?_, rfl, rfl, by decide⟩
  rfl

/-- C2 amended: after a health-check pass over a registry in which the
named threaded monitor's context is dead, the registry still has the same
keys, maps the name to exactly one entry, and that entry is a live started
fresh context — but its error_count is the fresh default 0 rather than the
value from before the death. -/
theorem monitor_recreation_single_live_context
    (l1 l2 : List (String × MonitorModel)) (name : String) (m : MonitorModel)
    (hkey1 : ∀ e ∈ l1, e.1 ≠ name) (hkey2 : ∀ e ∈ l2, e.1 ≠ name)
    (hthread : m.is_thread = true) (hdead : m.alive = false) :
    (checkMonitorsHealth (l1 ++ (name, m) :: l2)).map Prod.fst
        = (l1 ++ (name, m) :: l2).map Prod.fst
  ∧ List.lookup name (checkMonitorsHealth (l1 ++ (name, m) :: l2))
        = some (freshMonitor name)
  ∧ (checkMonitorsHealth (l1 ++ (name, m) :: l2)).countP (fun e => e.1 == name) = 1
  ∧ (freshMonitor name).alive = true
  ∧ (freshMonitor name).started = true
  ∧ (freshMonitor name).error_count = 0 := by
  have hmid : healthStep (name, m) = (name, freshMonitor name) := by
    simp [healthStep, threadCreationNeeded, hthread, hdead]
  have hsplit : checkMonitorsHealth (l1 ++ (name, m) :: l2)
      = l1.map healthStep ++ (name, freshMonitor name) :: l2.map healthStep := by
    simp [checkMonitorsHealth, hmid]
  refine ⟨?_, ?_, ?_, rfl, rfl, rfl⟩
  · simp only [checkMonitorsHealth, List.map_map]
    exact List.map_congr_left (fun e _ => healthStep_fst e)
  · rw [hsplit]
    rw [lookup_append_of_no_key]
    · simp [List.lookup]
    · intro e he
      rcases List.mem_map.mp he with ⟨b, hb, rfl⟩
      rw [healthStep_fst]
      exact hkey1 b hb
  · rw [hsplit]
    rw [List.countP_append, List.countP_cons]
    have hz1 : (l1.map healthStep).countP (fun e => e.1 == name) = 0 := by
      rw [List.countP_eq_zero]
      intro e he
      rcases List.mem_map.mp he with ⟨b, hb, rfl⟩
      simp [healthStep_fst]
      exact hkey1 b hb
    have hz2 : (l2.map healthStep).countP (fun e => e.1 == name) = 0 := by
      rw [List.countP_eq_zero]
      intro e he
      rcases List.mem_map.mp he with ⟨b, hb, rfl⟩
      simp [healthStep_fst]
      exact hkey2 b hb
    simp [hz1, hz2]

/-- C2 amended witness: a one-entry registry holding a dead threaded
monitor with error_count 5. -/
theorem monitor_recreation_single_live_context_witness :
    (checkMonitorsHealth ([] ++ ("net", MonitorModel.mk "net" true false false 5 false false []) :: [])).map Prod.fst
        = ([] ++ ("net", MonitorModel.mk "net" true false false 5 false false []) :: []).map Prod.fst
  ∧ List.lookup "net" (checkMonitorsHealth ([] ++ ("net", MonitorModel.mk "net" true false false 5 false false []) :: []))
        = some (freshMonitor "net")
  ∧ (checkMonitorsHealth ([] ++ ("net", MonitorModel.mk "net" true false false 5 false false []) :: [])).countP (fun e => e.1 == "net") = 1
  ∧ (freshMonitor "net").alive = true
  ∧ (freshMonitor "net").started = true
  ∧ (freshMonitor "net").error_count = 0 :=
  monitor_recreation_single_live_context [] [] "net"
    (MonitorModel.mk "net" true false false 5 false false [])
    (by simp) (by simp) rfl rfl

end NuvlaEdge

namespace NuvlaEdge

/-- C8: a monitor that raises during collection, or whose data is not yet
marked updated, is skipped without aborting the pass: the working mapping
built by _collect_monitor_metrics is exactly the one built with that
monitor removed, so every other monitor's contribution is still merged and
the cycle continues. -/
theorem collect_metrics_failure_isolation
    (l1 l2 : List (String × MonitorModel)) (bad : String × MonitorModel)
    (hbad : bad.2.raisesOnPopulate = true ∨ bad.2.updated = false) :
    collectMonitorMetrics (l1 ++ bad :: l2) = collectMonitorMetrics (l1 ++ l2) := by
  have hstep : ∀ d, collectStep d bad = d := by
    intro d
    rcases hbad with h | h
    · simp [collectStep, h]
    · by_cases hr : bad.2.raisesOnPopulate = true
      · simp [collectStep, hr]
      · simp [collectStep, hr, h]
  unfold collectMonitorMetrics
  rw [List.foldl_append, List.foldl_append, List.foldl_cons, hstep]

/-- C8 witness: a raising monitor sits between two healthy updated
monitors; the mapping equals the one collected without it. -/
theorem collect_metrics_failure_isolation_witness :
    collectMonitorMetrics
        ([("a", MonitorModel.mk "a" false true true 0 true false [("ip", "1.2.3.4")])]
          ++ ("bad", MonitorModel.mk "bad" false true true 2 true true [("x", "y")])
          :: [("b", MonitorModel.mk "b" false true true 0 true false [("hostname", "edge")])])
      = collectMonitorMetrics
        ([("a", MonitorModel.mk "a" false true true 0 true false [("ip", "1.2.3.4")])]
          ++ [("b", MonitorModel.mk "b" false true true 0 true false [("hostname", "edge")])]) :=
  collect_metrics_failure_isolation
    [("a", MonitorModel.mk "a" false true true 0 true false [("ip", "1.2.3.4")])]
    [("b", MonitorModel.mk "b" false true true 0 true false [("hostname", "edge")])]
    ("bad", MonitorModel.mk "bad" false true true 2 true true [("x", "y")])
    (Or.inl rfl)

end NuvlaEdge

namespace NuvlaEdge

/-- In-process reconciliation record for one interface, as stored in
NetworkMonitor.first_net_stats: the baseline raw counter per direction
(bytes-transmitted / bytes-received) and the carry per direction
(bytes-transmitted-carry / bytes-received-carry). -/
structure IfaceNetStats where
  txBytes : Nat
  rxBytes : Nat
  txCarry : Nat
  rxCarry : Nat
deriving DecidableEq, Repr

/-- Modelled from the spec: the per-interface poll step of the
CounterReconciler (NetworkMonitor.read_traffic_data; the network monitor
source is not under src, only tests/agent/monitor/components/
test_network.py is, and that test pins this behaviour exactly). Inputs:
the in-process first_net_stats entry for the interface (none on the first
in-process poll), the persisted record loaded this cycle (previous
cumulative transmitted/received, none when absent or unreadable), and the
raw counters (tx, rx). Output: the reported (tx, rx) cumulative pair and
the new first_net_stats entry. First poll: report (0, 0), baseline the raw
values, carry 0. Reset detection is per interface: when either direction's
raw value is below its baseline, both directions take their carry from the
persisted record (0 when none), the baselines become the raw values, and
the cycle reports carry + raw for each direction. Otherwise the report is
carry + (raw − baseline) per direction and the entry is unchanged. -/
def readTrafficIface (first : Option IfaceNetStats) (previous : Option (Nat × Nat))
    (tx rx : Nat) : (Nat × Nat) × IfaceNetStats :=
  match first with
  | none => ((0, 0), IfaceNetStats.mk tx rx 0 0)
  | some f =>
      let prevTx := (previous.map Prod.fst).getD 0
      let prevRx := (previous.map Prod.snd).getD 0
      if rx < f.rxBytes ∨ tx < f.txBytes then
        ((prevTx + tx, prevRx + rx), IfaceNetStats.mk tx rx prevTx prevRx)
      else
        ((tx - f.txBytes + f.txCarry, rx - f.rxBytes + f.rxCarry), f)

/-- Sanity anchor against test_read_traffic_data's final block: with a
persisted record present and the counters reset, the report is the
persisted value plus the current reading, and the stored entry keeps the
persisted value as carry. -/
theorem readTrafficIface_matches_reset_with_previous :
    readTrafficIface (some (IfaceNetStats.mk 1 0 0 0)) (some (1, 1)) 0 0
        = ((1, 1), IfaceNetStats.mk 0 0 1 1)
  ∧ readTrafficIface (some (IfaceNetStats.mk 3 2 0 0)) (some (2, 2)) 1 1
        = ((3, 3), IfaceNetStats.mk 1 1 2 2) := by
  refine ⟨?_, ?_⟩ <;> decide

/-- C4: cold start scenario for one interface with no persisted record at
any poll. Raw (tx, rx) reads (2, 1), then (10, 9), then (1, 0): reported
(0, 0); then (8, 8) with the baseline still (2, 1); then a reset is
detected, the carry resets to 0, the cycle reports (1, 0) and the new
baseline is (1, 0). Matches test_read_traffic_data. -/
theorem counter_reconciler_cold_start_scenario :
    readTrafficIface none none 2 1 = ((0, 0), IfaceNetStats.mk 2 1 0 0)
  ∧ readTrafficIface (some (IfaceNetStats.mk 2 1 0 0)) none 10 9
        = ((8, 8), IfaceNetStats.mk 2 1 0 0)
  ∧ readTrafficIface (some (IfaceNetStats.mk 2 1 0 0)) none 1 0
        = ((1, 0), IfaceNetStats.mk 1 0 0 0) := by
  refine ⟨rfl, ?_, ?_⟩ <;> decide

/-- C3 counterexample: on a reset poll the reconciler does not report
carry + 0. Without a persisted record, baseline (2, 1) with carry 0 and
raw (1, 0) reports tx = 1, not carry + 0 = 0; with a persisted cumulative
(4, 4), baseline (5, 5) with carry (7, 7) and raw (2, 2) reports tx = 6,
which is neither the old carry 7 nor the new carry 4. The report on a
reset is the new carry plus the full raw value. -/
theorem counter_reset_report_cex :
    (readTrafficIface (some (IfaceNetStats.mk 2 1 0 0)) none 1 0).1.1 = 1
  ∧ (1 : Nat) ≠ 0 + 0
  ∧ (readTrafficIface (some (IfaceNetStats.mk 5 5 7 7)) (some (4, 4)) 2 2).1.1 = 6
  ∧ (6 : Nat) ≠ 7 + 0
  ∧ (6 : Nat) ≠ 4 + 0 := by
  refine ⟨?_, ?_, ?_, ?_, ?_⟩ <;> decide

/-- C3 amended: on a poll in which either direction's raw value is
strictly below its in-process baseline, the interface is handled as reset:
both directions' new carry is the persisted record's cumulative value when
one was loaded this cycle (0 otherwise), the baselines are set to the raw
values, and the cycle reports newCarry + raw per direction — the raw value
is counted in full from zero, not carry + 0. -/
theorem counter_reset_semantics (f : IfaceNetStats) (previous : Option (Nat × Nat))
    (tx rx : Nat) (hreset : tx < f.txBytes ∨ rx < f.rxBytes) :
    readTrafficIface (some f) previous tx rx
      = (((previous.map Prod.fst).getD 0 + tx, (previous.map Prod.snd).getD 0 + rx),
         IfaceNetStats.mk tx rx ((previous.map Prod.fst).getD 0)
           ((previous.map Prod.snd).getD 0)) := by
  have hcond : rx < f.rxBytes ∨ tx < f.txBytes := hreset.symm
  simp [readTrafficIface, hcond]

/-- C3 amended witness: a reset triggered by the rx direction alone (raw
tx 2 is above its baseline 1, raw rx 2 is below its baseline 5), with a
persisted cumulative record (4, 4). -/
theorem counter_reset_semantics_witness :
    readTrafficIface (some (IfaceNetStats.mk 1 5 7 7)) (some (4, 4)) 2 2
      = ((((some ((4 : Nat), (4 : Nat))).map Prod.fst).getD 0 + 2,
          ((some ((4 : Nat), (4 : Nat))).map Prod.snd).getD 0 + 2),
         IfaceNetStats.mk 2 2 (((some ((4 : Nat), (4 : Nat))).map Prod.fst).getD 0)
           (((some ((4 : Nat), (4 : Nat))).map Prod.snd).getD 0)) :=
  counter_reset_semantics (IfaceNetStats.mk 1 5 7 7) (some (4, 4)) 2 2
    (Or.inr (by decide))

end NuvlaEdge

namespace NuvlaEdge

/-- Model of a Python class object as passed for the worker_type argument:
its own name and the name of its metaclass. For every plain Python class
the metaclass is type, so metaName is the string given by t y p e. -/
structure PyClass where
  clsName : String
  metaName : String
deriving DecidableEq, Repr

/-- Model of a Python return value that is either None or a bool:
add_worker in manager.py has no return statement on either path, so it
always produces the None value. -/
inductive PyReturn where
  | noneVal
  | boolVal (b : Bool)
deriving DecidableEq, Repr

/-- Model of the AgentWorker record constructed by WorkerManager.add_worker
(the AgentWorker class itself, nuvlaedge/agent/worker/worker.py, is not
under src; only what add_worker passes to it is modelled: the period, the
worker class and the exposed actions). -/
structure AgentWorkerModel where
  period : Nat
  workerTypeName : String
  actions : List String
deriving DecidableEq, Repr

/-- Model of WorkerManager.add_worker (manager.py lines 19-43): the
registry key is the name of the metaclass of worker_type. When the key is
absent a new AgentWorker is stored under it (dict insertion appends), when
it is present the call only logs. Both paths fall through without a return
statement, producing None; no path raises. -/
def add_worker (reg : List (String × AgentWorkerModel)) (period : Nat)
    (workerType : PyClass) (actions : List String) :
    List (String × AgentWorkerModel) × PyReturn :=
  if (List.lookup workerType.metaName reg).isSome then
    (reg, PyReturn.noneVal)
  else
    (reg ++ [(workerType.metaName, AgentWorkerModel.mk period workerType.clsName actions)],
     PyReturn.noneVal)

/-- C5 counterexample: re-registering an existing name is indeed a no-op,
but the call does not report failure as a boolean result — both paths of
add_worker return None, so the caller receives no boolean. -/
theorem add_worker_duplicate_no_bool_cex :
    (add_worker [("type", AgentWorkerModel.mk 60 "Telemetry" [])] 30
        (PyClass.mk "Heartbeat" "type") ["run"]).1
      = [("type", AgentWorkerModel.mk 60 "Telemetry" [])]
  ∧ (add_worker [("type", AgentWorkerModel.mk 60 "Telemetry" [])] 30
        (PyClass.mk "Heartbeat" "type") ["run"]).2
      = PyReturn.noneVal
  ∧ PyReturn.noneVal ≠ PyReturn.boolVal false
  ∧ PyReturn.noneVal ≠ PyReturn.boolVal true := by
  refine ⟨?_, ?_, ?_, ?_⟩ <;> decide

/-- C5 amended: re-registering a key already present in the registry is a
no-op that never throws: the registry is returned unchanged (so no new
AgentWorker is created and no execution context is started), and the call
returns None — a falsy value but not a boolean — while the failure is only
logged. -/
theorem add_worker_duplicate_noop (reg : List (String × AgentWorkerModel))
    (period : Nat) (workerType : PyClass) (actions : List String)
    (hdup : (List.lookup workerType.metaName reg).isSome = true) :
    add_worker reg period workerType actions = (reg, PyReturn.noneVal) := by
  simp [add_worker, hdup]

/-- C5 amended witness: duplicate registration on a one-entry registry. -/
theorem add_worker_duplicate_noop_witness :
    add_worker [("type", AgentWorkerModel.mk 60 "Telemetry" [])] 30
        (PyClass.mk "Heartbeat" "type") ["run"]
      = ([("type", AgentWorkerModel.mk 60 "Telemetry" [])], PyReturn.noneVal) :=
  add_worker_duplicate_noop [("type", AgentWorkerModel.mk 60 "Telemetry" [])] 30
    (PyClass.mk "Heartbeat" "type") ["run"] (by decide)

/-- C10: add_worker keys the registry by the metaclass name of the
worker_type argument, so every plain class keys to the same string. The
first registration stores exactly one entry under that key, and any later
add_worker call with any plain class finds the key present and performs no
registration — the registry never grows past one entry. -/
theorem add_worker_metaclass_key_collision (t1 t2 : PyClass)
    (p1 p2 : Nat) (a1 a2 : List String)
    (h1 : t1.metaName = "type") (h2 : t2.metaName = "type") :
    (add_worker [] p1 t1 a1).1 = [("type", AgentWorkerModel.mk p1 t1.clsName a1)]
  ∧ (add_worker (add_worker [] p1 t1 a1).1 p2 t2 a2).1
      = (add_worker [] p1 t1 a1).1 := by
  have hfst : (add_worker [] p1 t1 a1).1 = [("type", AgentWorkerModel.mk p1 t1.clsName a1)] := by
    simp [add_worker, h1, List.lookup]
  refine ⟨hfst, ?_⟩
  rw [hfst]
  simp [add_worker, h2, List.lookup]

/-- C10 witness: two distinct plain classes, Telemetry then Heartbeat; the
second registration is silently dropped because both key to the same
metaclass name. -/
theorem add_worker_metaclass_key_collision_witness :
    (add_worker [] 60 (PyClass.mk "Telemetry" "type") ["run"]).1
      = [("type", AgentWorkerModel.mk 60 "Telemetry" ["run"])]
  ∧ (add_worker (add_worker [] 60 (PyClass.mk "Telemetry" "type") ["run"]).1 20
        (PyClass.mk "Heartbeat" "type") ["beat"]).1
      = (add_worker [] 60 (PyClass.mk "Telemetry" "type") ["run"]).1 :=
  add_worker_metaclass_key_collision (PyClass.mk "Telemetry" "type")
    (PyClass.mk "Heartbeat" "type") 60 20 ["run"] ["beat"] rfl rfl

end NuvlaEdge

namespace NuvlaEdge

/-- Modelled from the spec: a TimedAction of the ActionHandler
(nuvlaedge.common.timed_actions, not under src): a named periodic action
with its period and its countdown until due (negative when overdue). The
callable and its arguments are irrelevant to scheduling order and are not
modelled. -/
structure TimedAction where
  name : String
  period : Int
  remaining : Int
deriving DecidableEq, Repr

/-- Modelled from the spec: ActionHandler.add registers a named action,
failing (no-op) on a duplicate name. -/
def addAction (h : List TimedAction) (a : TimedAction) : List TimedAction :=
  if h.any (fun b => b.name == a.name) then h else h ++ [a]

/-- Advance every countdown by the elapsed wall time since the previous
call. -/
def advanceAll (h : List TimedAction) (elapsed : Int) : List TimedAction :=
  h.map (fun a => TimedAction.mk a.name a.period (a.remaining - elapsed))

/-- Modelled from the spec: selection of the action with the smallest
remaining time; the first-registered action wins ties, making the choice
deterministic. -/
def selectNext : List TimedAction → Option TimedAction
  | [] => none
  | a :: rest =>
      match selectNext rest with
      | none => some a
      | some b => if a.remaining ≤ b.remaining then some a else some b

/-- After the selected action runs, its countdown is reset to its period. -/
def resetAfterRun (h : List TimedAction) (nm : String) : List TimedAction :=
  h.map (fun b => if b.name == nm then TimedAction.mk b.name b.period b.period else b)

/-- Modelled from the spec: ActionHandler.next advances the clocks, runs
the nearest-deadline action and resets its countdown; exactly one action
runs per call. Returns the name of the action run and the new state. -/
def nextAction (h : List TimedAction) (elapsed : Int) : Option String × List TimedAction :=
  let h2 := advanceAll h elapsed
  match selectNext h2 with
  | none => (none, h2)
  | some a => (some a.name, resetAfterRun h2 a.name)

/-- The smallest countdown over the registered actions, when any exist. -/
def minRemaining : List TimedAction → Option Int
  | [] => none
  | a :: rest =>
      match minRemaining rest with
      | none => some a.remaining
      | some m => some (min a.remaining m)

/-- Modelled from the spec: ActionHandler.sleep_time, the clamped-to-zero
minimum countdown — how long the main loop may idle. -/
def sleepTime (h : List TimedAction) : Int :=
  max 0 ((minRemaining h).getD 0)

/-- The startup registration performed by main() in agent/__init__.py
lines 132-145: heartbeat with an initial countdown of its full period,
telemetry with half its period, sync_resources with period 30 and the
default countdown 0. -/
def startupHandler (hbPeriod telPeriod : Int) : List TimedAction :=
  addAction (addAction (addAction []
        (TimedAction.mk "heartbeat" hbPeriod hbPeriod))
      (TimedAction.mk "telemetry" telPeriod (telPeriod / 2)))
    (TimedAction.mk "sync_resources" 30 0)

/-- The fixed virtual clock run of the agent main loop: the first next()
call happens immediately (elapsed 0); each later call happens after the
loop idled exactly sleep_time, with the actions themselves taking no time.
Collects the names of the actions run. -/
def runCycles : Nat → List TimedAction → Int → List String
  | 0, _, _ => []
  | n + 1, h, elapsed =>
      match nextAction h elapsed with
      | (none, _) => []
      | (some nm, h2) => nm :: runCycles n h2 (sleepTime h2)

theorem selectNext_isSome (x : TimedAction) (t : List TimedAction) :
    ∃ a, selectNext (x :: t) = some a := by
  simp only [selectNext]
  cases selectNext t with
  | none => exact ⟨x, rfl⟩
  | some b =>
      by_cases h : x.remaining ≤ b.remaining
      · exact ⟨x, by simp [h]⟩
      · exact ⟨b, by simp [h]⟩

theorem selectNext_min (l : List TimedAction) :
    ∀ a, selectNext l = some a → ∀ b, b ∈ l → a.remaining ≤ b.remaining := by
  induction l with
  | nil =>
      intro a ha
      simp [selectNext] at ha
  | cons x t ih =>
      intro a ha b hb
      simp only [selectNext] at ha
      rcases htail : selectNext t with _ | c
      · rw [htail] at ha
        simp only [Option.some.injEq] at ha
        subst ha
        rcases List.mem_cons.mp hb with rfl | hbt
        · exact le_refl _
        · cases t with
          | nil => simp at hbt
          | cons y t2 =>
              obtain ⟨c, hc⟩ := selectNext_isSome y t2
              rw [hc] at htail
              cases htail
      · rw [htail] at ha
        dsimp only at ha
        by_cases hle : x.remaining ≤ c.remaining
        · rw [if_pos hle] at ha
          simp only [Option.some.injEq] at ha
          subst ha
          rcases List.mem_cons.mp hb with rfl | hbt
          · exact le_refl _
          · exact le_trans hle (ih c htail b hbt)
        · rw [if_neg hle] at ha
          simp only [Option.some.injEq] at ha
          subst ha
          rcases List.mem_cons.mp hb with rfl | hbt
          · omega
          · exact ih c htail b hbt

end NuvlaEdge

namespace NuvlaEdge

/-- C9: at agent startup, main() registers heartbeat with an initial
countdown equal to its full period, telemetry with half its period and
sync_resources with countdown 0; with positive periods the first next()
call therefore runs sync_resources (smallest countdown); every next() call
runs a nearest-deadline action (deterministically, first-registered on
ties); and under a fixed virtual clock with the spec scenario periods
(heartbeat 20, telemetry 60, sync 30) the first seven cycles run the
deterministic nearest-deadline sequence. -/
theorem scheduler_startup_stagger (hb tp : Int) (hhb : 0 < hb) (htp : 0 < tp / 2) :
    ((startupHandler hb tp).map (fun a => (a.name, a.remaining)))
        = [("heartbeat", hb), ("telemetry", tp / 2), ("sync_resources", 0)]
  ∧ (nextAction (startupHandler hb tp) 0).1 = some "sync_resources"
  ∧ (∀ l a, selectNext l = some a → ∀ b, b ∈ l → a.remaining ≤ b.remaining)
  ∧ runCycles 7 (startupHandler 20 60) 0
      = ["sync_resources", "heartbeat", "telemetry", "sync_resources",
         "heartbeat", "heartbeat", "sync_resources"] := by
  refine ⟨rfl, ?_, fun l a ha b hb2 => selectNext_min l a ha b hb2, by decide⟩
  have hstart : startupHandler hb tp =
      [TimedAction.mk "heartbeat" hb hb, TimedAction.mk "telemetry" tp (tp / 2),
       TimedAction.mk "sync_resources" 30 0] := rfl
  have h1 : ¬ (tp / 2 ≤ (0 : Int)) := by omega
  have h2 : ¬ (hb ≤ (0 : Int)) := by omega
  rw [hstart]
  simp [nextAction, advanceAll, selectNext, h1, h2]

/-- C9 witness: the spec scenario, heartbeat period 20 and telemetry
period 60. -/
theorem scheduler_startup_stagger_witness :
    ((startupHandler 20 60).map (fun a => (a.name, a.remaining)))
        = [("heartbeat", 20), ("telemetry", 60 / 2), ("sync_resources", 0)]
  ∧ (nextAction (startupHandler 20 60) 0).1 = some "sync_resources"
  ∧ (∀ l a, selectNext l = some a → ∀ b, b ∈ l → a.remaining ≤ b.remaining)
  ∧ runCycles 7 (startupHandler 20 60) 0
      = ["sync_resources", "heartbeat", "telemetry", "sync_resources",
         "heartbeat", "heartbeat", "sync_resources"] :=
  scheduler_startup_stagger 20 60 (by decide) (by decide)

end NuvlaEdge
